import Mathlib

/-!
Verification of the webhook-driven Notion/HubSpot user-sync service.

The development shallowly embeds the Python source files
`hubspot_webhook_handler.py` and `notion_hubspot_sync.py`:

* JSON payloads become the inductive `JVal` (with `JFields` for objects and
  `JElems` for arrays, a mutual family so every function below is structurally
  recursive and kernel-evaluable);
* Python truthiness, `dict.get`, `str()`, `str.lower/upper/strip`, `in`,
  `startswith` and dict update are modelled by the `py*`/`d*` helpers;
* code that can raise (attribute access such as `.lower()` on a non-string)
  runs in `Except PyErr`;
* the two network collaborators of the HubSpot handler
  (`get_hubspot_user`, `update_hubspot_user_name`) are abstracted at their
  call boundary by a `Net` oracle, since no claim concerns their HTTP
  internals.

Character-level caveats (stated once, used throughout): Python's `str.upper`
and `str.lower` are full Unicode maps; the embedding models them on the ASCII
letters (`pyCharUpper`/`pyCharLower`), i.e. exactly the characters whose case
image is a single character, which is also the proviso of the idempotence
claim.  Python's `str.strip` removes Unicode whitespace; `isPySpace` covers
its ASCII subset.  `pyRepr` reproduces Python's `repr` for dictionaries and
lists except string-escape sequences, which no code path inspects.
-/

mutual

/-- A JSON value as delivered in a webhook payload (Python object model:
`None`, `bool`, `int`, `str`, `dict`, `list`). -/
inductive JVal where
  | jnull
  | jbool (b : Bool)
  | jnum (n : Int)
  | jstr (s : String)
  | jobj (fields : JFields)
  | jarr (elems : JElems)

/-- The key/value entries of a JSON object, in insertion order. -/
inductive JFields where
  | nil
  | cons (k : String) (v : JVal) (rest : JFields)

/-- The elements of a JSON array. -/
inductive JElems where
  | nil
  | cons (v : JVal) (rest : JElems)

end

open JVal

/-- First value bound to key `k`, like a Python dict indexing hit. -/
def JFields.lookup : JFields → String → Option JVal
  | .nil, _ => none
  | .cons k' v rest, k => if k' = k then some v else rest.lookup k

/-- Python `d.get(k, dflt)`. -/
def dget (d : JFields) (k : String) (dflt : JVal) : JVal :=
  (d.lookup k).getD dflt

/-- Python `k in d`. -/
def dmem (d : JFields) (k : String) : Bool :=
  (d.lookup k).isSome

/-- Whether the object has no entries. -/
def JFields.isEmpty : JFields → Bool
  | .nil => true
  | .cons _ _ _ => false

/-- Whether the array has no elements. -/
def JElems.isEmpty : JElems → Bool
  | .nil => true
  | .cons _ _ => false

/-- Python truthiness of a JSON value. -/
def truthy : JVal → Bool
  | .jnull => false
  | .jbool b => b
  | .jnum n => n ≠ 0
  | .jstr s => s ≠ ""
  | .jobj f => !f.isEmpty
  | .jarr l => !l.isEmpty

/-- Python `a or b` (value-returning, short-circuit). -/
def pyOr (a b : JVal) : JVal :=
  if truthy a then a else b

/-- Python dict assignment `d[k] = v`: replace in place if the key exists,
else append. -/
def JFields.setKey : JFields → String → JVal → JFields
  | .nil, k, v => .cons k v .nil
  | .cons k' v' rest, k, v =>
      if k' = k then .cons k' v rest else .cons k' v' (rest.setKey k v)

/-- Python `d.update(other)`: assign each entry of `other` in order. -/
def JFields.updateWith : JFields → JFields → JFields
  | d, .nil => d
  | d, .cons k v rest => (d.setKey k v).updateWith rest

/-- The `for key in [...]: if key in event: user_data[key] = event[key]`
loop of the contact branch (`hubspot_webhook_handler.py:352-355`). -/
def pickKeys (event : JFields) : List String → JFields
  | [] => .nil
  | k :: ks =>
      match event.lookup k with
      | some v => .cons k v (pickKeys event ks)
      | none => pickKeys event ks

/-- ASCII model of the character map underlying Python `str.upper`:
`a`..`z` (codepoints 97-122) map 32 down onto `A`..`Z`. -/
def pyCharUpper (c : Char) : Char :=
  if 97 ≤ c.toNat ∧ c.toNat ≤ 122 then Char.ofNat (c.toNat - 32) else c

/-- ASCII model of the character map underlying Python `str.lower`:
`A`..`Z` (codepoints 65-90) map 32 up onto `a`..`z`. -/
def pyCharLower (c : Char) : Char :=
  if 65 ≤ c.toNat ∧ c.toNat ≤ 90 then Char.ofNat (c.toNat + 32) else c

/-- Python `s.lower()` on an actual string. -/
def pyLowerStr (s : String) : String :=
  ⟨s.data.map pyCharLower⟩

/-- Python `s.upper()` on an actual string. -/
def pyUpperStr (s : String) : String :=
  ⟨s.data.map pyCharUpper⟩

/-- Python `s.startswith(pre)`. -/
def pyStartsWith (s pre : String) : Bool :=
  pre.data.isPrefixOf s.data

/-- Python `needle in hay` on strings (substring containment). -/
def pyInStr (needle hay : String) : Bool :=
  hay.data.tails.any (fun t => needle.data.isPrefixOf t)

/-- A single-quote character, used when rendering Python `repr` text. -/
def pyQuote : String :=
  String.singleton (Char.ofNat 39)

mutual

/-- Python `repr` of a JSON value (string-escape sequences not modelled;
no handler logic inspects the text). -/
def pyRepr : JVal → String
  | .jnull => "None"
  | .jbool true => "True"
  | .jbool false => "False"
  | .jnum n => toString n
  | .jstr s => pyQuote ++ s ++ pyQuote
  | .jobj f => "\x7b" ++ pyReprFields f ++ "\x7d"
  | .jarr l => "[" ++ pyReprElems l ++ "]"

/-- `repr` of the entries of a dict, comma-separated. -/
def pyReprFields : JFields → String
  | .nil => ""
  | .cons k v .nil => pyQuote ++ k ++ pyQuote ++ ": " ++ pyRepr v
  | .cons k v rest => pyQuote ++ k ++ pyQuote ++ ": " ++ pyRepr v ++ ", " ++ pyReprFields rest

/-- `repr` of the elements of a list, comma-separated. -/
def pyReprElems : JElems → String
  | .nil => ""
  | .cons v .nil => pyRepr v
  | .cons v rest => pyRepr v ++ ", " ++ pyReprElems rest

end

/-- Python `str(v)`. -/
def pyStr : JVal → String
  | .jstr s => s
  | v => pyRepr v

/-- Exceptions the handler code can raise (`.lower()`/`.upper()`/`.get` on a
non-string/non-dict raises `AttributeError`; `dict.update` with a non-mapping
raises `TypeError`). -/
inductive PyErr where
  | attributeError
  | typeError
deriving DecidableEq

/-- Python `v.lower()` on an arbitrary value: only strings have the method. -/
def asLower (v : JVal) : Except PyErr String :=
  match v with
  | .jstr s => .ok (pyLowerStr s)
  | _ => .error .attributeError

/-- Python `v.upper()` on an arbitrary value. -/
def asUpper (v : JVal) : Except PyErr String :=
  match v with
  | .jstr s => .ok (pyUpperStr s)
  | _ => .error .attributeError

/-- Python `v.get(k, dflt)` on an arbitrary value: only dicts have `.get`. -/
def jget (v : JVal) (k : String) (dflt : JVal) : Except PyErr JVal :=
  match v with
  | .jobj f => .ok (dget f k dflt)
  | _ => .error .attributeError

/-- Python `v == s` for a string literal `s` (and `v != s` by negation):
non-strings never equal a string. -/
def jeqStr (v : JVal) (s : String) : Bool :=
  match v with
  | .jstr t => t = s
  | _ => false

/-- Characters removed by Python `str.strip()` (ASCII whitespace subset). -/
def isPySpace (c : Char) : Bool :=
  c = ' ' || c = '\t' || c = '\n' || c = '\x0d' || c = '\x0b' || c = '\x0c'

/-- Drop trailing characters satisfying `isPySpace`. -/
def dropTrailing : List Char → List Char
  | [] => []
  | c :: rest =>
      let r := dropTrailing rest
      if r.isEmpty && isPySpace c then [] else c :: r

/-- Python `s.strip()` (on the character list). -/
def pyStrip (l : List Char) : List Char :=
  dropTrailing (l.dropWhile isPySpace)

/-- `capitalize_name` (`hubspot_webhook_handler.py:27-47`, identical copy at
`notion_hubspot_sync.py:53-73`): empty or all-whitespace input is returned
unchanged; otherwise the input is stripped, its first character uppercased,
and the remaining characters kept as they are. -/
def capitalize_name (name : String) : String :=
  if name.data.isEmpty || (pyStrip name.data).isEmpty then name
  else
    let nm := pyStrip name.data
    if nm.length > 0 then
      if nm.length > 1 then ⟨pyCharUpper nm.head! :: nm.tail⟩
      else ⟨[pyCharUpper nm.head!]⟩
    else ⟨nm⟩

/-- The spec's description of the normalizer, written independently of the
source's branch structure: strip; if nothing remains return the input
unchanged, else uppercase exactly the first remaining character. -/
def normalizeSpec (s : String) : String :=
  match pyStrip s.data with
  | [] => s
  | c :: rest => ⟨pyCharUpper c :: rest⟩

/-- `validate_expanded_object_payload` (`hubspot_webhook_handler.py:207-242`).
Returns `False` without an `objectId`; otherwise `True` (the
`subscriptionId`/`eventType` inspection can only fall through to the final
flexible `return True`, though its `.lower()` call can raise). -/
def validate_expanded_object_payload (event : JFields) : Except PyErr Bool := do
  let has_subscription_id := dmem event "subscriptionId"
  let has_object_id := dmem event "objectId"
  let has_event_type := dmem event "eventType"
  if !has_object_id then
    return false
  if has_subscription_id && has_event_type then
    let event_type ← asLower (dget event "eventType" (jstr ""))
    if pyStartsWith event_type "object." then
      return true
  return true

/-- Which of the handler's payload formats produced the id, mirroring the
`📦 Found ... format` log line of each branch. -/
inductive Fmt where
  | f0PropChange
  | f1Contact
  | f1Expanded
  | f2BareObject
  | f3UserId
  | f4UserObject
  | f5ObjectType
  | f6Nested
deriving DecidableEq

/-- The handler's running `(user_id, user_data)` state.  `none` is Python's
initial `user_id = None, user_data = None`; every branch that assigns
`user_id` also assigns `user_data`, and the code distinguishes the states
only by the truthiness of `user_id`, so `some ("", ...)` faithfully covers
the `str(...) == ""` corner. -/
def HState := Option (String × JVal × Fmt)

/-- Python `if user_id:` / `if not user_id:` on the running state. -/
def hsTruthy : HState → Bool
  | none => false
  | some (uid, _, _) => uid ≠ ""

/-- The `user_data` component (Python `None` when unset). -/
def hsData : HState → JVal
  | none => jnull
  | some (_, ud, _) => ud

/-- Property names the handler is willing to normalize
(`hubspot_webhook_handler.py:332,444`). -/
def namePropList : List String :=
  ["firstname", "lastname", "first name", "last name"]

/-- The `elif` arms of formats 1/1-expanded
(`hubspot_webhook_handler.py:344-396`), reached when rule 1's condition
fails: the contact shape and the generic expanded-object shape. -/
def chainA_rest (event : JFields) : Except PyErr HState := do
  let contact_event_type ← asLower (dget event "eventType" (jstr ""))
  if pyStartsWith contact_event_type "contact." || dmem event "contactId" then
    let contact_id := pyOr (dget event "contactId" jnull) (dget event "objectId" jnull)
    if truthy contact_id then
      let props := dget event "properties" (jobj .nil)
      let user_data := if truthy props then props else jobj (pickKeys event ["firstname", "lastname", "email"])
      return some (pyStr contact_id, user_data, Fmt.f1Contact)
    else
      return none
  else if dmem event "occurredAt" || dmem event "subscriptionId" then
    if dmem event "objectId" then
      let object_id := pyStr (dget event "objectId" jnull)
      let object_type ← asUpper (dget event "objectType" (jstr ""))
      let expanded_event_type ← asLower (dget event "eventType" (jstr ""))
      let is_user_event :=
        pyInStr "USER" object_type || pyInStr "CONTACT" object_type ||
        pyStartsWith expanded_event_type "object." ||
        pyStartsWith expanded_event_type "contact." ||
        ["user.created", "user.updated", "user.propertychange", "user.deleted",
         "contact.created", "contact.updated", "contact.propertychange"].contains expanded_event_type
      if is_user_event then
        let ud0 : JFields := .nil
        let ud1 ←
          if pyInStr "propertyChange" expanded_event_type || pyInStr "propertychange" expanded_event_type then do
            let property_name := dget event "propertyName" (jstr "")
            let property_value := dget event "propertyValue" (jstr "")
            if truthy property_name then
              -- A truthy non-string propertyName would become a non-string
              -- dict key in Python, which the String-keyed model cannot
              -- represent; no JSON webhook payload carries one.
              match property_name with
              | .jstr s => pure (ud0.setKey s property_value)
              | _ => Except.error PyErr.typeError
            else
              pure ud0
          else
            pure ud0
        let ud2 ←
          if truthy (dget event "properties" jnull) then
            match dget event "properties" jnull with
            | .jobj props => pure (ud1.updateWith props)
            | _ => Except.error PyErr.typeError
          else
            pure ud1
        return some (object_id, jobj ud2, Fmt.f1Expanded)
      else
        return none
    else
      return none
  else
    return none

/-- Formats 0/1/1-expanded (`hubspot_webhook_handler.py:324-396`): the
`if`/`elif` chain over the expanded propertyChange shape, then (via
`chainA_rest`) the contact shape and the generic expanded-object shape. -/
def chainA (event : JFields) : Except PyErr HState := do
  let subscription_type ← asLower (dget event "subscriptionType" (jstr ""))
  if subscription_type = "object.propertychange" && dmem event "objectId" then
    let object_id := pyStr (dget event "objectId" jnull)
    let property_name ← asLower (dget event "propertyName" (jstr ""))
    if namePropList.contains property_name then
      let property_value := dget event "propertyValue" (jstr "")
      return some (object_id,
        jobj (.cons "propertyName" (jstr property_name)
          (.cons "propertyValue" property_value
            (.cons "objectTypeId" (dget event "objectTypeId" (jstr ""))
              (.cons "subscriptionType" (jstr subscription_type) .nil)))),
        Fmt.f0PropChange)
    else
      return none
  else
    chainA_rest event

/-- Formats 2-5 (`hubspot_webhook_handler.py:398-425`): the bare-objectId /
userId / flat-record / typed-object `if`/`elif` chain, each guarded by
`not user_id`. -/
def chainB (event : JFields) (st : HState) : Except PyErr HState := do
  if !hsTruthy st && dmem event "objectId" then
    return some (pyStr (dget event "objectId" jnull), dget event "properties" (jobj .nil), Fmt.f2BareObject)
  else if !hsTruthy st && dmem event "userId" then
    return some (pyStr (dget event "userId" jnull), dget event "properties" (jobj .nil), Fmt.f3UserId)
  else if !hsTruthy st && dmem event "id" then
    if jeqStr (dget event "type" jnull) "USER" || dmem event "email" || dmem event "firstName" then
      return some (pyStr (dget event "id" jnull), jobj event, Fmt.f4UserObject)
    else
      return st
  else if !hsTruthy st && dmem event "objectType" then
    let object_type_val ← asUpper (dget event "objectType" (jstr ""))
    if ["USER", "USER_DEFINED", "CONTACT"].contains object_type_val then
      return some (pyStr (dget event "objectId" (jstr "")), dget event "properties" (jobj .nil), Fmt.f5ObjectType)
    else
      return st
  else
    return st

/-- Format 6 (`hubspot_webhook_handler.py:427-437`): the nested `object`
sub-mapping, guarded by `not user_id`. -/
def chainC (event : JFields) (st : HState) : HState :=
  if !hsTruthy st && dmem event "object" then
    match dget event "object" (jobj .nil) with
    | .jobj obj =>
        let obj_id := pyOr (dget obj "id" jnull) (dget obj "objectId" jnull)
        let obj_type := pyOr (dget obj "type" jnull) (dget obj "objectType" (jstr ""))
        if truthy obj_id &&
           (pyInStr "USER" (pyUpperStr (pyStr obj_type)) ||
            pyInStr "CONTACT" (pyUpperStr (pyStr obj_type)) ||
            dmem obj "firstName" || dmem obj "firstname" || dmem obj "email") then
          some (pyStr obj_id, pyOr (dget obj "properties" (jobj .nil)) (jobj obj), Fmt.f6Nested)
        else
          st
    | _ => st
  else
    st

/-- The late propertyChange filter (`hubspot_webhook_handler.py:440-449`):
when `user_id` and `user_data` are truthy and `user_data` carries
`subscriptionType == "object.propertychange"`, a property name outside the
firstname/lastname set is reported (and the caller returns `ignored`). -/
def ignoreCheck (st : HState) : Except PyErr (Option String) := do
  if hsTruthy st && truthy (hsData st) then
    let sv ← jget (hsData st) "subscriptionType" jnull
    if jeqStr sv "object.propertychange" then
      let pn ← jget (hsData st) "propertyName" (jstr "")
      let property_name ← asLower pn
      if !namePropList.contains property_name then
        return some property_name
      else
        return none
    else
      return none
  else
    return none

/-- How the classification part of `handle_single_hubspot_event`
(lines 298-457) ends. -/
inductive Target where
  | ignoredProperty (property_name : String)
  | noUserId
  | proceed (user_id : String) (user_data : JVal) (fmt : Fmt)

/-- Lines 298-457 of `handle_single_hubspot_event`: run the three branch
chains, then the propertyChange filter, then the `if not user_id` gate. -/
def resolveTarget (event : JFields) : Except PyErr Target := do
  let _ ← validate_expanded_object_payload event
  let stA ← chainA event
  let stB ← chainB event stA
  let stC := chainC event stB
  match ← ignoreCheck stC with
  | some property_name => return Target.ignoredProperty property_name
  | none =>
    match stC with
    | some (user_id, user_data, fmt) =>
        if user_id ≠ "" then
          return Target.proceed user_id user_data fmt
        else
          return Target.noUserId
    | none => return Target.noUserId

/-- The two network collaborators, abstracted at the call boundary of
`handle_single_hubspot_event`: `get_hubspot_user` yields the (already
converted) user/contact dict or `None`; `update_hubspot_user_name` yields
its success flag.  Arguments are `(user_id, is_contact)` and
`(user_id, first, last, is_contact)` respectively. -/
structure Net where
  get_hubspot_user : String → Bool → Option JFields
  update_hubspot_user_name : String → String → String → Bool → Bool

/-- The authoritative first-name value of the fetch, as the merge code reads
it (`hubspot_webhook_handler.py:479`). -/
def fetchedFirst (user : JFields) : JVal :=
  pyOr (dget user "firstName" (jstr "")) (pyOr (dget user "firstname" (jstr "")) (jstr ""))

/-- The authoritative last-name value of the fetch
(`hubspot_webhook_handler.py:480`). -/
def fetchedLast (user : JFields) : JVal :=
  pyOr (dget user "lastName" (jstr "")) (pyOr (dget user "lastname" (jstr "")) (jstr ""))

/-- The merge of authoritative fetch data, webhook `user_data` hints and the
raw event (`hubspot_webhook_handler.py:477-529`), producing
`(current_first, current_last)`. -/
def computeCurrentNames (user : JFields) (user_data : JVal) (event : JFields) :
    Except PyErr (JVal × JVal) := do
  let current_first := fetchedFirst user
  let current_last := fetchedLast user
  let (current_first, current_last) ←
    if truthy user_data then do
      let current_first ←
        if !truthy current_first then do
          let a ← jget user_data "firstName" (jstr "")
          let b ← jget user_data "firstname" (jstr "")
          let c ← jget user_data "First Name" (jstr "")
          pure (pyOr a (pyOr b (pyOr c (jstr ""))))
        else
          pure current_first
      let current_last ←
        if !truthy current_last then do
          let a ← jget user_data "lastName" (jstr "")
          let b ← jget user_data "lastname" (jstr "")
          let c ← jget user_data "Last Name" (jstr "")
          pure (pyOr a (pyOr b (pyOr c (jstr ""))))
        else
          pure current_last
      let pn ← jget user_data "propertyName" (jstr "")
      let property_name ← asLower (pyOr pn (jstr ""))
      let property_value ← jget user_data "propertyValue" (jstr "")
      if (property_name = "firstname" || property_name = "first name") && truthy property_value then
        pure (jstr (pyStr property_value), current_last)
      else if (property_name = "lastname" || property_name = "last name") && truthy property_value then
        pure (current_first, jstr (pyStr property_value))
      else
        pure (current_first, current_last)
    else
      pure (current_first, current_last)
  let (current_first, current_last) :=
    if !truthy current_first || !truthy current_last then
      match dget event "properties" (jobj .nil) with
      | .jobj event_props =>
          (if !truthy current_first then
             pyOr (dget event_props "firstname" (jstr ""))
               (pyOr (dget event_props "firstName" (jstr ""))
                 (pyOr (dget event_props "First Name" (jstr "")) (jstr "")))
           else current_first,
           if !truthy current_last then
             pyOr (dget event_props "lastname" (jstr ""))
               (pyOr (dget event_props "lastName" (jstr ""))
                 (pyOr (dget event_props "Last Name" (jstr "")) (jstr "")))
           else current_last)
      | _ => (current_first, current_last)
    else
      (current_first, current_last)
  return (current_first, current_last)

/-- Outcome dict of `handle_single_hubspot_event`, keyed by its `status`
field; `success` carries the `user_id` and before/after name pairs of the
source's response dict. -/
inductive HRes where
  | ignored (message : String)
  | success (user_id : String) (before : JVal × JVal) (after : String × String)
  | error (message : String)

/-- `capitalize_name` applied to a value of unknown type (its `.strip()`
raises on non-strings). -/
def capitalizeJ (v : JVal) : Except PyErr String :=
  match v with
  | .jstr s => .ok (capitalize_name s)
  | _ => .error .attributeError

/-- `normalize_user_name` (`hubspot_webhook_handler.py:50-64`) applied to the
current name values. -/
def normalize_user_name (first_name last_name : JVal) : Except PyErr (String × String) := do
  let normalized_first ← if truthy first_name then capitalizeJ first_name else pure ""
  let normalized_last ← if truthy last_name then capitalizeJ last_name else pure ""
  return (normalized_first, normalized_last)

/-- Lines 459-574 of `handle_single_hubspot_event`: contact detection, the
authoritative fetch, the name merge, the no-name and already-normalized
gates, and the update call. -/
def processTarget (net : Net) (event : JFields) (user_id : String) (user_data : JVal) :
    Except PyErr HRes := do
  let object_type_id ←
    if truthy user_data then jget user_data "objectTypeId" (jstr "")
    else pure (dget event "objectTypeId" (jstr ""))
  let is_contact :=
    jeqStr object_type_id "0-1" ||
    jeqStr (dget event "objectTypeId" (jstr "")) "0-1" ||
    pyInStr "contact" (pyLowerStr (pyStr (dget event "objectType" (jstr ""))))
  match net.get_hubspot_user user_id is_contact with
  | none => return HRes.error ("Could not retrieve user " ++ user_id)
  | some user =>
    let (current_first, current_last) ← computeCurrentNames user user_data event
    if !truthy current_first && !truthy current_last then
      return HRes.ignored "User has no first or last name to normalize"
    let (normalized_first, normalized_last) ← normalize_user_name current_first current_last
    let needs_update := !jeqStr current_first normalized_first || !jeqStr current_last normalized_last
    if !needs_update then
      return HRes.ignored "Names already normalized"
    if net.update_hubspot_user_name user_id normalized_first normalized_last is_contact then
      return HRes.success user_id (current_first, current_last) (normalized_first, normalized_last)
    else
      return HRes.error ("Failed to normalize user " ++ user_id)

/-- `handle_single_hubspot_event` (`hubspot_webhook_handler.py:298-574`). -/
def handle_single_hubspot_event (net : Net) (event : JFields) : Except PyErr HRes := do
  match ← resolveTarget event with
  | Target.ignoredProperty property_name =>
      return HRes.ignored
        ("Property " ++ pyQuote ++ property_name ++ pyQuote ++ " does not require name normalization")
  | Target.noUserId =>
      return HRes.ignored "No user ID found in webhook event"
  | Target.proceed user_id user_data _ =>
      processTarget net event user_id user_data

/-- The `status` string of a per-event result dict. -/
def statusOf : HRes → String
  | .ignored _ => "ignored"
  | .success _ _ _ => "success"
  | .error _ => "error"

/-- The array loop of `handle_hubspot_user_webhook`
(`hubspot_webhook_handler.py:266-273`): plain sequential iteration,
non-dict elements skipped, no `try`/`except` around the body. -/
def processEvents (net : Net) : JElems → Except PyErr (List HRes)
  | .nil => .ok []
  | .cons v rest =>
      match v with
      | .jobj fields => do
          let r ← handle_single_hubspot_event net fields
          let rs ← processEvents net rest
          return r :: rs
      | _ => processEvents net rest

/-- Number of results carrying the given status
(`sum(1 for r in results if r.get("status") == s)`). -/
def countStatus (results : List HRes) (s : String) : Nat :=
  results.countP (fun r => statusOf r = s)

/-- Return value of `handle_hubspot_user_webhook`: the aggregate summary
dict for an array payload, or the single-event dict otherwise. -/
inductive WRes where
  | batch (status : String) (success_count ignored_count error_count : Nat) (results : List HRes)
  | single (r : HRes)

/-- `handle_hubspot_user_webhook` (`hubspot_webhook_handler.py:245-295`). -/
def handle_hubspot_user_webhook (net : Net) (payload : JVal) : Except PyErr WRes :=
  match payload with
  | .jarr elems => do
      let results ← processEvents net elems
      let success_count := countStatus results "success"
      let ignored_count := countStatus results "ignored"
      let error_count := countStatus results "error"
      return WRes.batch
        (if success_count > 0 then "success" else if error_count = 0 then "ignored" else "error")
        success_count ignored_count error_count results
  | .jobj fields => do
      return WRes.single (← handle_single_hubspot_event net fields)
  | _ => .ok (WRes.single (HRes.error "Invalid webhook payload format"))

/-- The record `extract_user_properties` (`notion_hubspot_sync.py:76-141`)
hands to the orchestrator: every key is always present, names already
normalized. -/
structure NotionUserData where
  email : String
  first_name : String
  last_name : String
  hubspot_role : String
  phone : String
  hubspot_created : Bool
  hubspot_user_id : String

/-- What `sync_user_to_hubspot` decides to do after extraction. -/
inductive SyncAction where
  | errorNoEmail
  | errorNoName
  | updateUser (hubspot_user_id : String)
  | createUser
deriving DecidableEq

/-- The validation and create-vs-update branching of `sync_user_to_hubspot`
(`notion_hubspot_sync.py:331-360`), as a function of the extracted record:
require an email, require at least one name, then update exactly when
`hubspot_created and hubspot_user_id` is truthy, else create. -/
def sync_user_to_hubspot_branch (u : NotionUserData) : SyncAction :=
  if u.email = "" then SyncAction.errorNoEmail
  else if u.first_name = "" && u.last_name = "" then SyncAction.errorNoName
  else if u.hubspot_created && u.hubspot_user_id ≠ "" then SyncAction.updateUser u.hubspot_user_id
  else SyncAction.createUser

/-- Whether a payload element is a dict (Python `isinstance(e, dict)`,
`hubspot_webhook_handler.py:269`). -/
def isDictEv : JVal → Bool
  | .jobj _ => true
  | _ => false

/-! Concrete fixtures used by the claim theorems: webhook events from the
spec's examples and small collaborator oracles. -/

/-- `{"subscriptionType": "object.propertychange", "objectId": "42",
"propertyName": "phone", "propertyValue": "555"}` — the spec's non-name
property-change example. -/
def phoneEv : JFields :=
  .cons "subscriptionType" (jstr "object.propertychange")
    (.cons "objectId" (jstr "42")
      (.cons "propertyName" (jstr "phone")
        (.cons "propertyValue" (jstr "555") .nil)))

/-- `{"subscriptionType": "object.propertyChange", "objectId": 42,
"propertyName": "firstName", "propertyValue": "sam"}` — a rule-1 positive
instance (mixed case, numeric id). -/
def f0Ev : JFields :=
  .cons "subscriptionType" (jstr "object.propertyChange")
    (.cons "objectId" (jnum 42)
      (.cons "propertyName" (jstr "firstName")
        (.cons "propertyValue" (jstr "sam") .nil)))

/-- The `user_data` dict rule 1 builds for `f0Ev`
(`hubspot_webhook_handler.py:336-341`). -/
def f0Ud : JVal :=
  jobj (.cons "propertyName" (jstr "firstname")
    (.cons "propertyValue" (jstr "sam")
      (.cons "objectTypeId" (jstr "")
        (.cons "subscriptionType" (jstr "object.propertychange") .nil))))

/-- `{"eventType": "contact.propertychange", "contactId": "7"}` — carries the
claim's rule-1 markers via `eventType`/`contactId` only. -/
def contactEv : JFields :=
  .cons "eventType" (jstr "contact.propertychange") (.cons "contactId" (jstr "7") .nil)

/-- `{"subscriptionType": 1}` — `.lower()` on the integer raises
`AttributeError`. -/
def badEv : JFields := .cons "subscriptionType" (jnum 1) .nil

/-- `{"objectId": "42"}` — a bare-objectId event that normalizes
successfully under `net4`. -/
def goodEv : JFields := .cons "objectId" (jstr "42") .nil

/-- `{"subscriptionType": "object.propertychange", "objectId": "42",
"propertyName": "firstname", "propertyValue": "sam"}` — a name
property-change whose hint pair competes with the fetched record. -/
def evC2 : JFields :=
  .cons "subscriptionType" (jstr "object.propertychange")
    (.cons "objectId" (jstr "42")
      (.cons "propertyName" (jstr "firstname")
        (.cons "propertyValue" (jstr "sam") .nil)))

/-- Oracle: user `42` exists with unnormalized first name `john`; updates
succeed. -/
def net4 : Net :=
  ⟨fun uid _ => if uid = "42" then some (.cons "firstName" (jstr "john") .nil) else none,
   fun _ _ _ _ => true⟩

/-- Oracle: user `42` exists with non-empty fetched names `Bob Jones`;
updates succeed. -/
def netC : Net :=
  ⟨fun uid _ =>
     if uid = "42" then some (.cons "firstName" (jstr "Bob") (.cons "lastName" (jstr "Jones") .nil))
     else none,
   fun _ _ _ _ => true⟩

/-- The result `handle_single_hubspot_event net4 goodEv` evaluates to. -/
def goodRes : HRes := .success "42" (jstr "john", jstr "") ("John", "")

/-- A fetched user record with both names present. -/
def userBob : JFields :=
  .cons "firstName" (jstr "Bob") (.cons "lastName" (jstr "Jones") .nil)

/-- A hint dict carrying a firstname property-change pair. -/
def udfC2 : JFields :=
  .cons "propertyName" (jstr "firstname") (.cons "propertyValue" (jstr "sam") .nil)

/-- A hint dict carrying a lastname property-change pair. -/
def udfC2L : JFields :=
  .cons "propertyName" (jstr "lastname") (.cons "propertyValue" (jstr "kim") .nil)


/-! Helper lemmas about the character maps and `pyStrip`. -/

lemma toNat_ofNat_valid {n : Nat} (h : n < 55296) : (Char.ofNat n).toNat = n := by
  rw [Char.ofNat, dif_pos (Or.inl h)]
  rfl

lemma pyCharUpper_cases (c : Char) :
    pyCharUpper c = c ∨
    (65 ≤ (pyCharUpper c).toNat ∧ (pyCharUpper c).toNat ≤ 90) := by
  unfold pyCharUpper
  split_ifs with h
  · right
    rw [toNat_ofNat_valid (by omega)]
    omega
  · left; rfl

lemma pyCharUpper_fix_of_range {c : Char} (h65 : 65 ≤ c.toNat) (h90 : c.toNat ≤ 90) :
    pyCharUpper c = c := by
  unfold pyCharUpper
  rw [if_neg (by omega)]

lemma pyCharUpper_idem (c : Char) : pyCharUpper (pyCharUpper c) = pyCharUpper c := by
  rcases pyCharUpper_cases c with h | ⟨h1, h2⟩
  · rw [h, h]
  · exact pyCharUpper_fix_of_range h1 h2

lemma not_space_of_upper_range {u : Char} (h65 : 65 ≤ u.toNat) (h90 : u.toNat ≤ 90) :
    isPySpace u = false := by
  have hne : ∀ d : Char, u.toNat ≠ d.toNat → u ≠ d := fun d hnd he => hnd (by rw [he])
  simp only [isPySpace, Bool.or_eq_false_iff, decide_eq_false_iff_not]
  refine ⟨⟨⟨⟨⟨?_, ?_⟩, ?_⟩, ?_⟩, ?_⟩, ?_⟩ <;> (apply hne; first
    | (rw [show (' ').toNat = 32 from rfl]; omega)
    | (rw [show ('\t').toNat = 9 from rfl]; omega)
    | (rw [show ('\n').toNat = 10 from rfl]; omega)
    | (rw [show ('\x0d').toNat = 13 from rfl]; omega)
    | (rw [show ('\x0b').toNat = 11 from rfl]; omega)
    | (rw [show ('\x0c').toNat = 12 from rfl]; omega))

lemma pyCharUpper_not_space {c : Char} (h : isPySpace c = false) :
    isPySpace (pyCharUpper c) = false := by
  rcases pyCharUpper_cases c with h2 | ⟨h65, h90⟩
  · rw [h2]; exact h
  · exact not_space_of_upper_range h65 h90

lemma dropWhile_space_head {l : List Char} {c : Char} {t : List Char}
    (h : l.dropWhile isPySpace = c :: t) : isPySpace c = false := by
  induction l with
  | nil => simp at h
  | cons a l ih =>
      rw [List.dropWhile_cons] at h
      split at h
      · exact ih h
      · next hna =>
          injection h with h1 _
          subst h1
          simpa using hna

lemma dropTrailing_cons (a : Char) (t : List Char) :
    dropTrailing (a :: t) =
      if (dropTrailing t).isEmpty && isPySpace a then [] else a :: dropTrailing t := by
  simp only [dropTrailing]

lemma dropTrailing_idem (m : List Char) : dropTrailing (dropTrailing m) = dropTrailing m := by
  induction m with
  | nil => rfl
  | cons a t ih =>
      rw [dropTrailing_cons a t]
      split
      · rfl
      · next hP =>
          rw [dropTrailing_cons, ih]
          simp only [if_neg hP]

lemma dropTrailing_head {m : List Char} {c : Char} {r : List Char}
    (h : dropTrailing m = c :: r) : ∃ t, m = c :: t := by
  cases m with
  | nil => simp [dropTrailing] at h
  | cons a t =>
      rw [dropTrailing_cons] at h
      split at h
      · cases h
      · injection h with h1 _
        subst h1
        exact ⟨t, rfl⟩

lemma pyStrip_parts {l : List Char} {c : Char} {rest : List Char}
    (h : pyStrip l = c :: rest) :
    isPySpace c = false ∧ dropTrailing rest = rest := by
  unfold pyStrip at h
  obtain ⟨t, ht⟩ := dropTrailing_head h
  refine ⟨dropWhile_space_head ht, ?_⟩
  have hidem := dropTrailing_idem (l.dropWhile isPySpace)
  rw [h, dropTrailing_cons] at hidem
  split at hidem
  · cases hidem
  · injection hidem

lemma pyStrip_cons_fix {u : Char} {rest : List Char}
    (hu : isPySpace u = false) (hr : dropTrailing rest = rest) :
    pyStrip (u :: rest) = u :: rest := by
  unfold pyStrip
  rw [List.dropWhile_cons, if_neg (by simp [hu]), dropTrailing_cons, hr]
  simp [hu]

lemma capitalize_eq_normalizeSpec (s : String) : capitalize_name s = normalizeSpec s := by
  unfold capitalize_name normalizeSpec
  cases h : pyStrip s.data with
  | nil => simp [h]
  | cons c rest =>
      have hne : s.data.isEmpty = false := by
        cases hd : s.data with
        | nil => rw [hd] at h; simp [pyStrip, dropTrailing, List.dropWhile] at h
        | cons _ _ => rfl
      simp only [hne, List.isEmpty_cons, Bool.or_false, Bool.false_eq_true, if_false]
      cases rest with
      | nil => simp
      | cons d ds => simp

lemma capitalize_strip_empty {s : String} (h : pyStrip s.data = []) :
    capitalize_name s = s := by
  rw [capitalize_eq_normalizeSpec, normalizeSpec, h]

lemma capitalize_strip_cons {s : String} {c : Char} {rest : List Char}
    (h : pyStrip s.data = c :: rest) :
    capitalize_name s = ⟨pyCharUpper c :: rest⟩ := by
  rw [capitalize_eq_normalizeSpec, normalizeSpec, h]

lemma asLower_ok {v : JVal} {s : String} (h : asLower v = .ok s) :
    ∃ t, v = jstr t ∧ s = pyLowerStr t := by
  cases v <;> simp [asLower] at h
  exact ⟨_, rfl, h.symm⟩

lemma asUpper_ok {v : JVal} {s : String} (h : asUpper v = .ok s) :
    ∃ t, v = jstr t ∧ s = pyUpperStr t := by
  cases v <;> simp [asUpper] at h
  exact ⟨_, rfl, h.symm⟩

/-- C7: `capitalize_name` is total and pure; empty or all-whitespace input is
returned unchanged (not trimmed); any other input is returned stripped with
exactly its first character uppercased and every later character untouched;
in particular the six example values of the spec evaluate as stated. -/
theorem C7_capitalize_name_total_spec :
    (∀ s : String, pyStrip s.data = [] → capitalize_name s = s) ∧
    (∀ (s : String) (c : Char) (rest : List Char),
       pyStrip s.data = c :: rest → capitalize_name s = ⟨pyCharUpper c :: rest⟩) ∧
    capitalize_name "" = "" ∧
    capitalize_name "   " = "   " ∧
    capitalize_name "john" = "John" ∧
    capitalize_name "mary jane" = "Mary jane" ∧
    capitalize_name ("O" ++ pyQuote ++ "CONNOR") = "O" ++ pyQuote ++ "CONNOR" ∧
    capitalize_name "z" = "Z" :=
  ⟨fun _ h => capitalize_strip_empty h,
   fun _ _ _ h => capitalize_strip_cons h,
   rfl, by decide, by decide, by decide, by decide, by decide⟩

/-- Witness for C7: both conditional parts applied at concrete inputs. -/
theorem C7_witness :
    capitalize_name "  ab" = ⟨pyCharUpper 'a' :: ['b']⟩ ∧ capitalize_name " " = " " :=
  ⟨C7_capitalize_name_total_spec.2.1 "  ab" 'a' ['b'] (by decide),
   C7_capitalize_name_total_spec.1 " " (by decide)⟩

/-- C8: the normalizer is idempotent, `capitalize_name (capitalize_name s) =
capitalize_name s` (the embedding's character map covers exactly the strings
whose first alphabetic character has a single-character uppercase form). -/
theorem C8_capitalize_name_idem (s : String) :
    capitalize_name (capitalize_name s) = capitalize_name s := by
  cases h : pyStrip s.data with
  | nil => rw [capitalize_strip_empty h, capitalize_strip_empty h]
  | cons c rest =>
      obtain ⟨hc, hr⟩ := pyStrip_parts h
      rw [capitalize_strip_cons h]
      have h2 : pyStrip (String.mk (pyCharUpper c :: rest)).data = pyCharUpper c :: rest :=
        pyStrip_cons_fix (pyCharUpper_not_space hc) hr
      rw [capitalize_strip_cons h2, pyCharUpper_idem]

/-- C9 (amended): whenever the validator returns normally it returns `true`
exactly when the event contains an `objectId` key; the
`subscriptionId`/`eventType` inspection never changes the outcome. -/
theorem C9_validate_iff_objectId :
    ∀ (event : JFields) (b : Bool),
      validate_expanded_object_payload event = .ok b → b = dmem event "objectId" := by
  intro ev b h
  unfold validate_expanded_object_payload at h
  simp only [bind, Except.bind, pure, Except.pure] at h
  split at h
  · next hno =>
      injection h with h1
      simp only [Bool.not_eq_true'] at hno
      rw [← h1, hno]
  · next hyes =>
      simp only [Bool.not_eq_true', Bool.not_eq_false] at hyes
      rw [hyes]
      split at h
      · cases ha : asLower (dget ev "eventType" (jstr "")) with
        | error e => rw [ha] at h; simp at h
        | ok s =>
            rw [ha] at h
            dsimp only [] at h
            split at h <;> (injection h with h1; exact h1.symm)
      · injection h with h1
        exact h1.symm

/-- C9 counterexample: on the empty event the validator returns `false`, not
`true` — it does not always return `true`. -/
theorem C9_counterexample_empty_event :
    validate_expanded_object_payload .nil = .ok false ∧
    (Except.ok false : Except PyErr Bool) ≠ .ok true :=
  ⟨rfl, fun h => by injection h with h1; exact Bool.noConfusion h1⟩

/-- Witness for C9: the characterization applied to the empty event. -/
theorem C9_witness :
    (false : Bool) = dmem .nil "objectId" :=
  C9_validate_iff_objectId .nil false rfl

/-- C5 counterexample: a record with `hubspot_created = true` but an empty
`hubspot_user_id` takes the create path, so `crm_created` alone does not
prevent a create call. -/
theorem C5_created_without_id_creates :
    sync_user_to_hubspot_branch ⟨"a@b.c", "Jo", "", "", "", true, ""⟩ = .createUser ∧
    SyncAction.createUser ≠ SyncAction.updateUser "" :=
  ⟨rfl, by decide⟩

/-- C5 (amended): once `hubspot_created` is true and a non-empty
`hubspot_user_id` is carried, `sync_user_to_hubspot` never takes the create
path. -/
theorem C5_no_create_when_created_and_id :
    ∀ u : NotionUserData, u.hubspot_created = true → u.hubspot_user_id ≠ "" →
      sync_user_to_hubspot_branch u ≠ SyncAction.createUser := by
  intro u hc hid
  unfold sync_user_to_hubspot_branch
  split_ifs with h1 h2 h3
  · simp
  · simp
  · simp
  · exact absurd (show (u.hubspot_created && u.hubspot_user_id ≠ "") = true by
      simp [hc, hid]) h3

/-- Witness for C5: the amended theorem at a synced record. -/
theorem C5_witness :
    sync_user_to_hubspot_branch ⟨"a@b.c", "Jo", "", "", "", true, "77"⟩ ≠ SyncAction.createUser :=
  C5_no_create_when_created_and_id ⟨"a@b.c", "Jo", "", "", "", true, "77"⟩ rfl (by decide)

/-- C3 counterexample: in the two-element array `[badEv, goodEv]` the
`AttributeError` raised while classifying `badEv` propagates out of the
loop, so `goodEv` is never processed — while `[goodEv]` alone yields a
success aggregate. -/
theorem C3_exception_aborts_batch :
    handle_hubspot_user_webhook net4 (jarr (.cons (jobj badEv) (.cons (jobj goodEv) .nil))) =
      .error .attributeError ∧
    handle_hubspot_user_webhook net4 (jarr (.cons (jobj goodEv) .nil)) =
      .ok (.batch "success" 1 0 0 [goodRes]) :=
  ⟨rfl, rfl⟩

/-- C3 (amended): the loop is plain sequential iteration — an element whose
processing returns a result (of any status) leaves the rest processed, a
non-dict element is skipped, but an element whose processing raises aborts
the remaining elements with that exception. -/
theorem C3_sequential_iteration :
    (∀ (net : Net) (f : JFields) (rest : JElems) (r : HRes),
       handle_single_hubspot_event net f = .ok r →
       processEvents net (.cons (jobj f) rest) = (processEvents net rest).map (r :: ·)) ∧
    (∀ (net : Net) (f : JFields) (rest : JElems) (e : PyErr),
       handle_single_hubspot_event net f = .error e →
       processEvents net (.cons (jobj f) rest) = .error e) ∧
    (∀ (net : Net) (v : JVal) (rest : JElems),
       isDictEv v = false →
       processEvents net (.cons v rest) = processEvents net rest) := by
  have hstep : ∀ (net : Net) (f : JFields) (rest : JElems),
      processEvents net (.cons (jobj f) rest) =
        (handle_single_hubspot_event net f).bind
          (fun r => (processEvents net rest).bind (fun rs => .ok (r :: rs))) :=
    fun _ _ _ => rfl
  refine ⟨?_, ?_, ?_⟩
  · intro net f rest r h
    rw [hstep, h]
    simp only [Except.bind]
    cases processEvents net rest <;> rfl
  · intro net f rest e h
    rw [hstep, h]
    rfl
  · intro net v rest h
    cases v <;> first | rfl | (simp [isDictEv] at h)

/-- Witness for C3: the continuation equation at a concrete element. -/
theorem C3_witness :
    processEvents net4 (.cons (jobj goodEv) .nil) = (processEvents net4 .nil).map (goodRes :: ·) :=
  C3_sequential_iteration.1 net4 goodEv .nil goodRes rfl

/-- C4: for every array payload that processes to completion the aggregate
counts results by status and the overall status is `success` if any
succeeded, else `ignored` when no errors, else `error`; the spec's
two-element example (one success, one unclassifiable) yields counts
`(1, 1, 0)` with overall status `success`. -/
theorem C4_batch_aggregate :
    (∀ (net : Net) (elems : JElems) (r : WRes),
       handle_hubspot_user_webhook net (jarr elems) = .ok r →
       ∃ results, processEvents net elems = .ok results ∧
         r = WRes.batch
               (if countStatus results "success" > 0 then "success"
                else if countStatus results "error" = 0 then "ignored" else "error")
               (countStatus results "success") (countStatus results "ignored")
               (countStatus results "error") results) ∧
    handle_hubspot_user_webhook net4 (jarr (.cons (jobj goodEv) (.cons (jobj .nil) .nil))) =
      .ok (.batch "success" 1 1 0 [goodRes, .ignored "No user ID found in webhook event"]) := by
  constructor
  · intro net elems r h
    unfold handle_hubspot_user_webhook at h
    simp only [bind, Except.bind] at h
    cases hp : processEvents net elems with
    | error e => rw [hp] at h; simp at h
    | ok results =>
        rw [hp] at h
        dsimp only [] at h
        injection h with h1
        exact ⟨results, rfl, h1.symm⟩
  · rfl

/-- Witness for C4: the aggregate law applied to the concrete two-element
array. -/
theorem C4_witness :
    ∃ results,
      processEvents net4 (.cons (jobj goodEv) (.cons (jobj .nil) .nil)) = .ok results ∧
      (WRes.batch "success" 1 1 0 [goodRes, .ignored "No user ID found in webhook event"]) =
        WRes.batch
          (if countStatus results "success" > 0 then "success"
           else if countStatus results "error" = 0 then "ignored" else "error")
          (countStatus results "success") (countStatus results "ignored")
          (countStatus results "error") results :=
  C4_batch_aggregate.1 net4 (.cons (jobj goodEv) (.cons (jobj .nil) .nil)) _ rfl

lemma chainA_rest_cases {event : JFields} {st : HState}
    (h : chainA_rest event = .ok st) :
    st = none ∨ ∃ u d, st = some (u, d, Fmt.f1Contact) ∨ st = some (u, d, Fmt.f1Expanded) := by
  unfold chainA_rest at h
  simp only [bind, Except.bind, pure, Except.pure] at h
  repeat' split at h
  all_goals (first
    | exact Except.noConfusion h
    | (injection h with h1 <;> first
        | exact .inl h1.symm
        | exact .inr ⟨_, _, .inl h1.symm⟩
        | exact .inr ⟨_, _, .inr h1.symm⟩))

lemma chainA_f0 {event : JFields} {u : String} {d : JVal}
    (h : chainA event = .ok (some (u, d, Fmt.f0PropChange))) :
    ∃ s, dget event "subscriptionType" (jstr "") = jstr s ∧
         pyLowerStr s = "object.propertychange" ∧ dmem event "objectId" = true := by
  unfold chainA at h
  simp only [bind, Except.bind, pure, Except.pure] at h
  cases hsub : asLower (dget event "subscriptionType" (jstr "")) with
  | error e => rw [hsub] at h; simp at h
  | ok s =>
      rw [hsub] at h
      dsimp only [] at h
      obtain ⟨t0, ht0, hs0⟩ := asLower_ok hsub
      split at h
      · next hcond =>
          simp only [Bool.and_eq_true, decide_eq_true_eq] at hcond
          exact ⟨t0, ht0, by rw [← hs0]; exact hcond.1, hcond.2⟩
      · rcases chainA_rest_cases h with h1 | ⟨u2, d2, h1 | h1⟩
        · exact Option.noConfusion h1
        · injection h1 with h2
          injection h2 with h3 h4
          injection h4 with h5 h6
          exact Fmt.noConfusion h6
        · injection h1 with h2
          injection h2 with h3 h4
          injection h4 with h5 h6
          exact Fmt.noConfusion h6

lemma chainB_of_truthy {event : JFields} {st : HState} (h : hsTruthy st = true) :
    chainB event st = .ok st := by
  unfold chainB
  simp [h, pure, Except.pure]

lemma chainC_of_truthy {event : JFields} {st : HState} (h : hsTruthy st = true) :
    chainC event st = st := by
  unfold chainC
  simp [h]

lemma chainB_cases {event : JFields} {st st' : HState}
    (h : chainB event st = .ok st') :
    st' = st ∨ ∃ u d f, st' = some (u, d, f) ∧
      (f = Fmt.f2BareObject ∨ f = Fmt.f3UserId ∨ f = Fmt.f4UserObject ∨ f = Fmt.f5ObjectType) := by
  unfold chainB at h
  simp only [bind, Except.bind, pure, Except.pure] at h
  repeat' split at h
  all_goals (first
    | exact Except.noConfusion h
    | (injection h with h1 <;> first
        | exact .inl h1.symm
        | exact .inr ⟨_, _, _, h1.symm, by simp⟩))

lemma chainC_cases (event : JFields) (st : HState) :
    chainC event st = st ∨ ∃ u d, chainC event st = some (u, d, Fmt.f6Nested) := by
  unfold chainC
  dsimp only []
  repeat' split
  all_goals first
    | exact .inl rfl
    | exact .inr ⟨_, _, rfl⟩

lemma chainB_truthy {event : JFields} {st st' : HState}
    (hmem : dmem event "objectId" = true)
    (hstr : pyStr (dget event "objectId" jnull) ≠ "")
    (h : chainB event st = .ok st') : hsTruthy st' = true := by
  cases ht : hsTruthy st with
  | true => rw [chainB_of_truthy ht] at h; injection h with h1; rw [← h1]; exact ht
  | false =>
      unfold chainB at h
      simp only [bind, Except.bind, pure, Except.pure, ht, hmem, Bool.not_false, Bool.true_and,
        if_true] at h
      injection h with h1
      rw [← h1]
      simpa [hsTruthy] using hstr

lemma resolveTarget_steps {event : JFields} {t : Target}
    (h : resolveTarget event = .ok t) :
    ∃ stA stB, chainA event = .ok stA ∧ chainB event stA = .ok stB ∧
      ((∃ pn, ignoreCheck (chainC event stB) = .ok (some pn) ∧ t = .ignoredProperty pn) ∨
       (ignoreCheck (chainC event stB) = .ok none ∧
         ((∃ u d f, chainC event stB = some (u, d, f) ∧ u ≠ "" ∧ t = .proceed u d f) ∨
          (t = .noUserId ∧
            (chainC event stB = none ∨
             ∃ u d f, chainC event stB = some (u, d, f) ∧ u = ""))))) := by
  unfold resolveTarget at h
  simp only [bind, Except.bind, pure, Except.pure] at h
  cases hv : validate_expanded_object_payload event with
  | error e => rw [hv] at h; simp at h
  | ok b =>
      rw [hv] at h
      dsimp only [] at h
      cases hA : chainA event with
      | error e => rw [hA] at h; simp at h
      | ok stA =>
          rw [hA] at h
          dsimp only [] at h
          cases hB : chainB event stA with
          | error e => rw [hB] at h; simp at h
          | ok stB =>
              rw [hB] at h
              dsimp only [] at h
              refine ⟨stA, stB, rfl, hB, ?_⟩
              cases hI : ignoreCheck (chainC event stB) with
              | error e => rw [hI] at h; simp at h
              | ok opn =>
                  rw [hI] at h
                  dsimp only [] at h
                  cases opn with
                  | some pn =>
                      injection h with h1
                      exact .inl ⟨pn, rfl, h1.symm⟩
                  | none =>
                      refine .inr ⟨rfl, ?_⟩
                      cases hC : chainC event stB with
                      | none => rw [hC] at h; injection h with h1; exact .inr ⟨h1.symm, .inl rfl⟩
                      | some triple =>
                          obtain ⟨u, d, f⟩ := triple
                          rw [hC] at h
                          dsimp only [] at h
                          split at h
                          · next hu =>
                              injection h with h1
                              exact .inl ⟨u, d, f, rfl, by simpa using hu, h1.symm⟩
                          · next hu =>
                              injection h with h1
                              exact .inr ⟨h1.symm, .inr ⟨u, d, f, rfl, by simpa using hu⟩⟩

/-- C1: on the spec's phone property-change example the handler does not
return an `ignored` outcome — classification falls through to the
bare-objectId rule, surfaces entity id `42`, fetches the record from the
CRM and (names unnormalized) performs a normalization write, contradicting
the code's own comment that non-name properties are ignored. -/
theorem C1_phone_propertychange_processed :
    resolveTarget phoneEv = .ok (.proceed "42" (jobj .nil) .f2BareObject) ∧
    handle_single_hubspot_event net4 phoneEv =
      .ok (.success "42" (jstr "john", jstr "") ("John", "")) :=
  ⟨rfl, rfl⟩

/-- C6 counterexample: an event whose only markers are
`eventType == "contact.propertychange"` and a `contactId` is classified by
the contact rule (rule 2), not by rule 1 as the claim states. -/
theorem C6_counterexample_contact_event :
    resolveTarget contactEv = .ok (.proceed "7" (jobj .nil) .f1Contact) ∧
    Fmt.f1Contact ≠ Fmt.f0PropChange :=
  ⟨rfl, by decide⟩

/-- C6 (amended): rule 1 produces a classification only when the lowercased
`subscriptionType` equals `"object.propertychange"` and an `objectId` key is
present — `eventType`, `"contact.propertychange"` and `contactId` do not
trigger it; it does fire on a mixed-case `subscriptionType` example. -/
theorem C6_rule1_exact :
    (∀ (event : JFields) (u : String) (d : JVal),
       resolveTarget event = .ok (.proceed u d .f0PropChange) →
       ∃ s, dget event "subscriptionType" (jstr "") = jstr s ∧
            pyLowerStr s = "object.propertychange" ∧ dmem event "objectId" = true) ∧
    resolveTarget f0Ev = .ok (.proceed "42" f0Ud .f0PropChange) := by
  constructor
  · intro event u d h
    obtain ⟨stA, stB, hA, hB, hrest⟩ := resolveTarget_steps h
    rcases hrest with ⟨pn, _, ht⟩ | ⟨_, ⟨u2, d2, f2, hC, hu2, ht⟩ | ⟨ht, _⟩⟩
    · exact Target.noConfusion ht
    · -- the proceed case: the format must be f0, trace it back through the chains
      injection ht with ht1 ht2 ht3
      subst ht1; subst ht2; subst ht3
      rcases chainC_cases event stB with hC2 | ⟨u3, d3, hC2⟩
      · rw [hC2] at hC
        rcases chainB_cases hB with hB2 | ⟨u4, d4, f4, hB2, hf4⟩
        · subst hB2
          rw [hC] at hA
          exact chainA_f0 hA
        · rw [hB2] at hC
          injection hC with h5
          injection h5 with h6 h7
          injection h7 with h8 h9
          subst h9
          rcases hf4 with h | h | h | h <;> exact Fmt.noConfusion h
      · rw [hC2] at hC
        injection hC with h5
        injection h5 with h6 h7
        injection h7 with h8 h9
        exact Fmt.noConfusion h9
    · exact Target.noConfusion ht
  · rfl

/-- Witness for C6: the only-if direction applied to the rule-1 example. -/
theorem C6_witness :
    ∃ s, dget f0Ev "subscriptionType" (jstr "") = jstr s ∧
         pyLowerStr s = "object.propertychange" ∧ dmem f0Ev "objectId" = true :=
  C6_rule1_exact.1 f0Ev "42" f0Ud rfl

/-- C10 counterexample: the payload `{"objectId": ""}` contains an
`objectId` key yet the handler returns the `No user ID found` ignored
outcome — `str("")` is falsy, so the bare-objectId rule does not make such
events unclassifiable-proof. -/
theorem C10_counterexample_empty_objectId :
    JFields.lookup (.cons "objectId" (jstr "") .nil) "objectId" = some (jstr "") ∧
    resolveTarget (.cons "objectId" (jstr "") .nil) = .ok .noUserId :=
  ⟨rfl, rfl⟩

/-- C10 (amended): for every dict payload whose `objectId` value has a
non-empty `str()`, classification that returns normally never ends in the
`No user ID found` outcome. -/
theorem C10_objectId_resolves :
    ∀ (event : JFields) (v : JVal) (t : Target),
      JFields.lookup event "objectId" = some v → pyStr v ≠ "" →
      resolveTarget event = .ok t → t ≠ Target.noUserId := by
  intro event v t hlook hstr h
  obtain ⟨stA, stB, hA, hB, hrest⟩ := resolveTarget_steps h
  have hmem : dmem event "objectId" = true := by simp [dmem, hlook]
  have hdget : dget event "objectId" jnull = v := by simp [dget, hlook]
  have hstB : hsTruthy stB = true := chainB_truthy hmem (by rw [hdget]; exact hstr) hB
  have hstC : hsTruthy (chainC event stB) = true := by
    rw [chainC_of_truthy hstB]; exact hstB
  rcases hrest with ⟨pn, _, ht⟩ | ⟨_, ⟨u2, d2, f2, hC, hu2, ht⟩ | ⟨ht, hC⟩⟩
  · subst ht; exact fun hcon => Target.noConfusion hcon
  · subst ht; exact fun hcon => Target.noConfusion hcon
  · exfalso
    rcases hC with hC | ⟨u3, d3, f3, hC, hu3⟩
    · rw [hC] at hstC; exact Bool.noConfusion hstC
    · rw [hC] at hstC
      subst hu3
      simp [hsTruthy] at hstC

/-- Witness for C10: the amended law applied to `{"objectId": "42"}`. -/
theorem C10_witness :
    (Target.proceed "42" (jobj .nil) .f2BareObject) ≠ Target.noUserId :=
  C10_objectId_resolves goodEv (jstr "42") (.proceed "42" (jobj .nil) .f2BareObject)
    rfl (by decide) rfl

lemma toDigitsCore_ne_nil {b : Nat} : ∀ (f n : Nat) (acc : List Char),
    acc ≠ [] → Nat.toDigitsCore b f n acc ≠ [] := by
  intro f
  induction f with
  | zero => intro n acc h; simpa [Nat.toDigitsCore] using h
  | succ f ih =>
      intro n acc h
      simp only [Nat.toDigitsCore]
      split
      · simp
      · exact ih _ _ (by simp)

lemma toDigits_ne_nil {b n : Nat} : Nat.toDigits b n ≠ [] := by
  unfold Nat.toDigits
  simp only [Nat.toDigitsCore]
  split
  · simp
  · exact toDigitsCore_ne_nil _ _ _ (by simp)

lemma natRepr_ne_empty (n : Nat) : Nat.repr n ≠ "" := by
  intro h
  apply toDigits_ne_nil (b := 10) (n := n)
  have := congrArg String.data h
  simpa [Nat.repr, List.asString] using this

lemma intToString_ne_empty (n : Int) : toString n ≠ "" := by
  show Int.repr n ≠ ""
  cases n with
  | ofNat m => exact natRepr_ne_empty m
  | negSucc m =>
      intro h
      have h2 : ('-' :: (Nat.repr (m + 1)).data) = ([] : List Char) := congrArg String.data h
      exact List.noConfusion h2

lemma truthy_pyStr_ne {v : JVal} (h : truthy v = true) : pyStr v ≠ "" := by
  cases v with
  | jnull => simp [truthy] at h
  | jbool b =>
      cases b
      · simp [truthy] at h
      · intro he; exact absurd (congrArg String.data he) (by simp [pyStr, pyRepr])
  | jnum n => exact intToString_ne_empty n
  | jstr s => simpa [truthy, pyStr] using h
  | jobj f =>
      intro he
      have h2 : ('\x7b' :: (pyReprFields f ++ "\x7d").data) = ([] : List Char) :=
        congrArg String.data he
      exact List.noConfusion h2
  | jarr l =>
      intro he
      have h2 : ('[' :: (pyReprElems l ++ "]").data) = ([] : List Char) :=
        congrArg String.data he
      exact List.noConfusion h2

/-- C2 counterexample: the CRM fetch returns a non-empty first name `Bob`,
yet the before/after pair of the success outcome shows the current first
name was taken from the property-change hint `sam` — the authoritative
value did not win. -/
theorem C2_counterexample_pair_overrides_fetch :
    netC.get_hubspot_user "42" false =
      some (.cons "firstName" (jstr "Bob") (.cons "lastName" (jstr "Jones") .nil)) ∧
    handle_single_hubspot_event netC evC2 =
      .ok (.success "42" (jstr "sam", jstr "Jones") ("Sam", "Jones")) ∧
    ("sam" : String) ≠ "Bob" :=
  ⟨rfl, rfl, by decide⟩

lemma merge_first_pair_wins :
    ∀ (user udf event : JFields) (cf cl : JVal) (pn : String),
      computeCurrentNames user (jobj udf) event = .ok (cf, cl) →
      truthy (jobj udf) = true →
      pyOr (dget udf "propertyName" (jstr "")) (jstr "") = jstr pn →
      (pyLowerStr pn = "firstname" ∨ pyLowerStr pn = "first name") →
      truthy (dget udf "propertyValue" (jstr "")) = true →
      cf = jstr (pyStr (dget udf "propertyValue" (jstr ""))) := by
  intro user udf event cf cl pn h hud hpn hpnin hpv
  unfold computeCurrentNames at h
  simp only [bind, Except.bind, pure, Except.pure, jget, hud, if_true] at h
  rw [hpn] at h
  simp only [asLower] at h
  have hcond : ((pyLowerStr pn = "firstname" || pyLowerStr pn = "first name") &&
      truthy (dget udf "propertyValue" (jstr ""))) = true := by
    rcases hpnin with h1 | h1 <;> simp [h1, hpv]
  have htv : truthy (jstr (pyStr (dget udf "propertyValue" (jstr "")))) = true := by
    simpa [truthy] using truthy_pyStr_ne hpv
  repeat' split at h
  all_goals (first
    | (injection h with h1; injection h1 with h2 h3; subst h2; subst h3;
       first
         | rfl
         | (exact absurd hcond (by assumption))
         | simp_all)
    | skip)

lemma merge_fetched_wins :
    ∀ (user : JFields) (user_data : JVal) (event : JFields) (cf cl : JVal),
      computeCurrentNames user user_data event = .ok (cf, cl) →
      truthy (fetchedFirst user) = true →
      (∀ (udf : JFields) (pn : String), user_data = jobj udf →
         pyOr (dget udf "propertyName" (jstr "")) (jstr "") = jstr pn →
         (pyLowerStr pn = "firstname" ∨ pyLowerStr pn = "first name") →
         truthy (dget udf "propertyValue" (jstr "")) = false) →
      cf = fetchedFirst user := by
  intro user ud event cf cl h hff hno
  unfold computeCurrentNames at h
  cases htr : truthy ud with
  | false =>
      simp only [bind, Except.bind, pure, Except.pure, htr, Bool.false_eq_true, if_false,
        hff, Bool.not_true] at h
      repeat' split at h
      all_goals (first
        | (injection h with h1; injection h1 with h2 h3; subst h2; subst h3;
           first | rfl | simp_all)
        | skip)
  | true =>
      cases ud with
      | jobj udf =>
          simp only [bind, Except.bind, pure, Except.pure, jget, htr, if_true,
            hff, Bool.not_true, Bool.false_eq_true, if_false] at h
          cases hal : asLower (pyOr (dget udf "propertyName" (jstr "")) (jstr "")) with
          | error e => rw [hal] at h; simp at h
          | ok p =>
              rw [hal] at h
              dsimp only [] at h
              obtain ⟨t, ht, hp⟩ := asLower_ok hal
              have hc1 : ((p = "firstname" || p = "first name") &&
                  truthy (dget udf "propertyValue" (jstr ""))) = false := by
                subst hp
                by_cases hin : pyLowerStr t = "firstname" ∨ pyLowerStr t = "first name"
                · have hz := hno udf t rfl ht hin
                  simp [hz]
                · push_neg at hin
                  simp [hin.1, hin.2]
              rw [hc1] at h
              simp only [Bool.false_eq_true, if_false] at h
              repeat' split at h
              all_goals (first
                | (injection h with h1; injection h1 with h2 h3; subst h2; subst h3;
                   first | rfl | simp_all)
                | skip)
      | jnull => simp [truthy] at htr
      | jbool b =>
          cases b
          · simp [truthy] at htr
          · simp only [bind, Except.bind, pure, Except.pure, jget, htr, if_true,
              hff, Bool.not_true, Bool.false_eq_true, if_false] at h
            split at h <;> exact Except.noConfusion h
      | jnum n =>
          simp only [bind, Except.bind, pure, Except.pure, jget, htr, if_true,
            hff, Bool.not_true, Bool.false_eq_true, if_false] at h
          split at h <;> exact Except.noConfusion h
      | jstr s =>
          simp only [bind, Except.bind, pure, Except.pure, jget, htr, if_true,
            hff, Bool.not_true, Bool.false_eq_true, if_false] at h
          split at h <;> exact Except.noConfusion h
      | jarr l =>
          simp only [bind, Except.bind, pure, Except.pure, jget, htr, if_true,
            hff, Bool.not_true, Bool.false_eq_true, if_false] at h
          split at h <;> exact Except.noConfusion h

lemma merge_last_pair_wins :
    ∀ (user udf event : JFields) (cf cl : JVal) (pn : String),
      computeCurrentNames user (jobj udf) event = .ok (cf, cl) →
      truthy (jobj udf) = true →
      pyOr (dget udf "propertyName" (jstr "")) (jstr "") = jstr pn →
      (pyLowerStr pn = "lastname" ∨ pyLowerStr pn = "last name") →
      truthy (dget udf "propertyValue" (jstr "")) = true →
      cl = jstr (pyStr (dget udf "propertyValue" (jstr ""))) := by
  intro user udf event cf cl pn h hud hpn hpnin hpv
  unfold computeCurrentNames at h
  simp only [bind, Except.bind, pure, Except.pure, jget, hud, if_true] at h
  rw [hpn] at h
  simp only [asLower] at h
  have hcond1 : ((pyLowerStr pn = "firstname" || pyLowerStr pn = "first name") &&
      truthy (dget udf "propertyValue" (jstr ""))) = false := by
    rcases hpnin with h1 | h1 <;> simp [h1]
  have hcond2 : ((pyLowerStr pn = "lastname" || pyLowerStr pn = "last name") &&
      truthy (dget udf "propertyValue" (jstr ""))) = true := by
    rcases hpnin with h1 | h1 <;> simp [h1, hpv]
  have htv : truthy (jstr (pyStr (dget udf "propertyValue" (jstr "")))) = true := by
    simpa [truthy] using truthy_pyStr_ne hpv
  repeat' split at h
  all_goals (first
    | (injection h with h1; injection h1 with h2 h3; subst h2; subst h3;
       first
         | rfl
         | (exact absurd hcond2 (by assumption))
         | simp_all)
    | skip)

lemma merge_fetched_last_wins :
    ∀ (user : JFields) (user_data : JVal) (event : JFields) (cf cl : JVal),
      computeCurrentNames user user_data event = .ok (cf, cl) →
      truthy (fetchedLast user) = true →
      (∀ (udf : JFields) (pn : String), user_data = jobj udf →
         pyOr (dget udf "propertyName" (jstr "")) (jstr "") = jstr pn →
         (pyLowerStr pn = "lastname" ∨ pyLowerStr pn = "last name") →
         truthy (dget udf "propertyValue" (jstr "")) = false) →
      cl = fetchedLast user := by
  intro user ud event cf cl h hfl hno
  unfold computeCurrentNames at h
  cases htr : truthy ud with
  | false =>
      simp only [bind, Except.bind, pure, Except.pure, htr, Bool.false_eq_true, if_false,
        hfl, Bool.not_true] at h
      repeat' split at h
      all_goals (first
        | (injection h with h1; injection h1 with h2 h3; subst h2; subst h3;
           first | rfl | simp_all)
        | skip)
  | true =>
      cases ud with
      | jobj udf =>
          simp only [bind, Except.bind, pure, Except.pure, jget, htr, if_true,
            hfl, Bool.not_true, Bool.false_eq_true, if_false] at h
          cases hal : asLower (pyOr (dget udf "propertyName" (jstr "")) (jstr "")) with
          | error e => rw [hal] at h; simp at h
          | ok p =>
              rw [hal] at h
              dsimp only [] at h
              obtain ⟨t, ht, hp⟩ := asLower_ok hal
              have hc2 : ((p = "lastname" || p = "last name") &&
                  truthy (dget udf "propertyValue" (jstr ""))) = false := by
                subst hp
                by_cases hin : pyLowerStr t = "lastname" ∨ pyLowerStr t = "last name"
                · have hz := hno udf t rfl ht hin
                  simp [hz]
                · push_neg at hin
                  simp [hin.1, hin.2]
              rw [hc2] at h
              simp only [Bool.false_eq_true, if_false] at h
              repeat' split at h
              all_goals (first
                | (injection h with h1; injection h1 with h2 h3; subst h2; subst h3;
                   first | rfl | simp_all)
                | skip)
      | jnull => simp [truthy] at htr
      | jbool b =>
          cases b
          · simp [truthy] at htr
          · simp only [bind, Except.bind, pure, Except.pure, jget, htr, if_true,
              hfl, Bool.not_true, Bool.false_eq_true, if_false] at h
            repeat' split at h
            all_goals exact Except.noConfusion h
      | jnum n =>
          simp only [bind, Except.bind, pure, Except.pure, jget, htr, if_true,
            hfl, Bool.not_true, Bool.false_eq_true, if_false] at h
          repeat' split at h
          all_goals exact Except.noConfusion h
      | jstr s =>
          simp only [bind, Except.bind, pure, Except.pure, jget, htr, if_true,
            hfl, Bool.not_true, Bool.false_eq_true, if_false] at h
          repeat' split at h
          all_goals exact Except.noConfusion h
      | jarr l =>
          simp only [bind, Except.bind, pure, Except.pure, jget, htr, if_true,
            hfl, Bool.not_true, Bool.false_eq_true, if_false] at h
          repeat' split at h
          all_goals exact Except.noConfusion h

/-- C2 (amended): in the name merge, a non-empty authoritative first-name
(resp. last-name) value wins over every hint source except the
propertyName/propertyValue pair — a pair naming the first (resp. last) name
with a truthy value is applied last and overrides even a non-empty fetched
value. -/
theorem C2_field_merge_policy :
    (∀ (user udf event : JFields) (cf cl : JVal) (pn : String),
       computeCurrentNames user (jobj udf) event = .ok (cf, cl) →
       truthy (jobj udf) = true →
       pyOr (dget udf "propertyName" (jstr "")) (jstr "") = jstr pn →
       (pyLowerStr pn = "firstname" ∨ pyLowerStr pn = "first name") →
       truthy (dget udf "propertyValue" (jstr "")) = true →
       cf = jstr (pyStr (dget udf "propertyValue" (jstr "")))) ∧
    (∀ (user : JFields) (user_data : JVal) (event : JFields) (cf cl : JVal),
       computeCurrentNames user user_data event = .ok (cf, cl) →
       truthy (fetchedFirst user) = true →
       (∀ (udf : JFields) (pn : String), user_data = jobj udf →
          pyOr (dget udf "propertyName" (jstr "")) (jstr "") = jstr pn →
          (pyLowerStr pn = "firstname" ∨ pyLowerStr pn = "first name") →
          truthy (dget udf "propertyValue" (jstr "")) = false) →
       cf = fetchedFirst user) ∧
    (∀ (user udf event : JFields) (cf cl : JVal) (pn : String),
       computeCurrentNames user (jobj udf) event = .ok (cf, cl) →
       truthy (jobj udf) = true →
       pyOr (dget udf "propertyName" (jstr "")) (jstr "") = jstr pn →
       (pyLowerStr pn = "lastname" ∨ pyLowerStr pn = "last name") →
       truthy (dget udf "propertyValue" (jstr "")) = true →
       cl = jstr (pyStr (dget udf "propertyValue" (jstr "")))) ∧
    (∀ (user : JFields) (user_data : JVal) (event : JFields) (cf cl : JVal),
       computeCurrentNames user user_data event = .ok (cf, cl) →
       truthy (fetchedLast user) = true →
       (∀ (udf : JFields) (pn : String), user_data = jobj udf →
          pyOr (dget udf "propertyName" (jstr "")) (jstr "") = jstr pn →
          (pyLowerStr pn = "lastname" ∨ pyLowerStr pn = "last name") →
          truthy (dget udf "propertyValue" (jstr "")) = false) →
       cl = fetchedLast user) :=
  ⟨merge_first_pair_wins, merge_fetched_wins, merge_last_pair_wins, merge_fetched_last_wins⟩

/-- Witness for C2: all four merge laws applied at concrete records. -/
theorem C2_witness :
    (jstr "sam" : JVal) = jstr (pyStr (dget udfC2 "propertyValue" (jstr ""))) ∧
    (jstr "Bob" : JVal) = fetchedFirst userBob ∧
    (jstr "kim" : JVal) = jstr (pyStr (dget udfC2L "propertyValue" (jstr ""))) ∧
    (jstr "Jones" : JVal) = fetchedLast userBob :=
  ⟨C2_field_merge_policy.1 userBob udfC2 .nil (jstr "sam") (jstr "Jones") "firstname"
     rfl rfl rfl (Or.inl rfl) rfl,
   C2_field_merge_policy.2.1 userBob jnull .nil (jstr "Bob") (jstr "Jones")
     rfl rfl (fun udf pn hud => absurd hud (by simp)),
   C2_field_merge_policy.2.2.1 userBob udfC2L .nil (jstr "Bob") (jstr "kim") "lastname"
     rfl rfl rfl (Or.inl rfl) rfl,
   C2_field_merge_policy.2.2.2 userBob jnull .nil (jstr "Bob") (jstr "Jones")
     rfl rfl (fun udf pn hud => absurd hud (by simp))⟩
